import Mathlib

/-!
Verification of the presence-tracking core of `bt_watch.py` (class
`DeviceTracker`): a shallow embedding of the four tracker operations
(`new_scan`, `update`, `finalize_scan`, `check_lost`) over an
association-list model of the Python dict `self.devices`, followed by
theorems about debounce, confirmation, grace-based expiry and the
structural invariants of the record map.

Modelling choices:
* Python `datetime` timestamps become `Int` (seconds); the comparison
  `(now - last).total_seconds() > grace` becomes `now - last > grace`
  over `Int`, which is exact for whole-second inputs.
* `self.devices : Dict[str, Dict[str, object]]` becomes
  `List (String × DeviceInfo)` in insertion order, matching Python dict
  iteration order; `setdefault` appends a fresh entry at the end.
* The per-device dict becomes the fixed-shape record `DeviceInfo`.  The
  keys `seen` and `last_seen` are absent from the `setdefault` default in
  the source and are only ever read after `update` has set them; the
  model gives them the inert defaults `false` / `none`, which `update`
  immediately overwrites.
-/

namespace BtWatch

/-- Event type tag: the `"type"` field of the emitted event dict. -/
inductive EventType where
  | NEW
  | LOST
deriving DecidableEq, Repr

/-- An emitted event dict `{"type", "mac", "name", "rssi"}`. -/
structure Event where
  etype : EventType
  mac : String
  name : String
  rssi : Int
deriving DecidableEq, Repr

/-- The `Observation` dataclass of the source. -/
structure Observation where
  timestamp : Int
  mac : String
  name : String
  address_type : String
  rssi : Int
deriving DecidableEq, Repr

/-- The per-device record: the value dict stored in `self.devices`. -/
structure DeviceInfo where
  consecutive : Nat
  last_rssi : Int
  name : String
  address_type : String
  active : Bool
  seen : Bool
  last_seen : Option Int
deriving DecidableEq, Repr

/-- The `DeviceTracker` object: the device map plus the two grace
durations fixed at construction. -/
structure DeviceTracker where
  devices : List (String × DeviceInfo)
  grace : Int
  weak_grace : Int
deriving DecidableEq, Repr

/-- `DeviceTracker.__init__(grace_seconds, weak_grace_seconds)`. -/
def mkTracker (g w : Int) : DeviceTracker :=
  { devices := [], grace := g, weak_grace := w }

/-- Keys of the device map, in iteration order. -/
def DeviceTracker.keys (t : DeviceTracker) : List String :=
  t.devices.map Prod.fst

/-- First-match association lookup, the read side of `self.devices[mac]`. -/
def look : List (String × DeviceInfo) → String → Option DeviceInfo
  | [], _ => none
  | p :: rest, m => if p.1 = m then some p.2 else look rest m

/-- The default record inserted by `setdefault` in `DeviceTracker.update`:
`{"consecutive": 0, "last_rssi": obs.rssi, "name": obs.name,
"address_type": obs.address_type, "active": False}`. -/
def defaultInfo (obs : Observation) : DeviceInfo :=
  { consecutive := 0
    last_rssi := obs.rssi
    name := obs.name
    address_type := obs.address_type
    active := false
    seen := false
    last_seen := none }

/-- The five field writes `update` performs on the looked-up record. -/
def setObs (obs : Observation) (info : DeviceInfo) : DeviceInfo :=
  { info with
    last_seen := some obs.timestamp
    last_rssi := obs.rssi
    name := obs.name
    address_type := obs.address_type
    seen := true }

/-- Entry-wise effect of `update` on the map: the record under `obs.mac`
receives the field writes, every other record is untouched. -/
def updF (obs : Observation) (k : String) (i : DeviceInfo) : DeviceInfo :=
  if k = obs.mac then setObs obs i else i

/-- `DeviceTracker.update(obs)`: `setdefault` (append a default entry if
the key is absent) followed by the five field writes on that entry. -/
def update (t : DeviceTracker) (obs : Observation) : DeviceTracker :=
  let devs :=
    if obs.mac ∈ t.devices.map Prod.fst then t.devices
    else t.devices ++ [(obs.mac, defaultInfo obs)]
  { t with devices := devs.map fun p => (p.1, updF obs p.1 p.2) }

/-- Entry-wise effect of `new_scan`: `info["seen"] = False`. -/
def clearSeen (_k : String) (i : DeviceInfo) : DeviceInfo :=
  { i with seen := false }

/-- `DeviceTracker.new_scan()`. -/
def new_scan (t : DeviceTracker) : DeviceTracker :=
  { t with devices := t.devices.map fun p => (p.1, clearSeen p.1 p.2) }

/-- Per-record body of the `finalize_scan` loop: on a hit increment
`consecutive` and, when the record is not yet active and the new count
reaches 2, activate it and emit a NEW event; on a miss reset the count. -/
def finalizeInfo (k : String) (info : DeviceInfo) : DeviceInfo × Option Event :=
  if info.seen then
    if info.active = false ∧ 2 ≤ info.consecutive + 1 then
      ({ info with consecutive := info.consecutive + 1, active := true },
       some { etype := EventType.NEW, mac := k, name := info.name, rssi := info.last_rssi })
    else
      ({ info with consecutive := info.consecutive + 1 }, none)
  else
    ({ info with consecutive := 0 }, none)

/-- The updated record produced by `finalizeInfo`. -/
def finF (k : String) (i : DeviceInfo) : DeviceInfo :=
  (finalizeInfo k i).1

/-- The `finalize_scan` loop over the map, accumulating events in
iteration order. -/
def finalizeAux : List (String × DeviceInfo) → List Event × List (String × DeviceInfo)
  | [] => ([], [])
  | p :: rest =>
    let r := finalizeAux rest
    match (finalizeInfo p.1 p.2).2 with
    | some e => (e :: r.1, (p.1, finF p.1 p.2) :: r.2)
    | none => (r.1, (p.1, finF p.1 p.2) :: r.2)

/-- `DeviceTracker.finalize_scan()`, returning the NEW events and the
updated tracker. -/
def finalize_scan (t : DeviceTracker) : List Event × DeviceTracker :=
  ((finalizeAux t.devices).1, { t with devices := (finalizeAux t.devices).2 })

/-- `grace = self.weak_grace if rssi < -90 else self.grace`. -/
def effectiveGrace (g w rssi : Int) : Int :=
  if rssi < -90 then w else g

/-- Whether a record is expired at `now`: a record with no `last_seen`
is skipped (never expired); otherwise expired when the silence strictly
exceeds the signal-dependent grace. -/
def isLost (g w now : Int) (info : DeviceInfo) : Bool :=
  match info.last_seen with
  | none => false
  | some last => decide (now - last > effectiveGrace g w info.last_rssi)

/-- The LOST event emitted for an expiring record. -/
def lostEvent (mac : String) (info : DeviceInfo) : Event :=
  { etype := EventType.LOST, mac := mac, name := info.name, rssi := info.last_rssi }

/-- The `check_lost` loop: iterate over a snapshot of the keys, emit a
LOST event for each expired record and delete it. -/
def checkLostAux (g w now : Int) :
    List (String × DeviceInfo) → List Event × List (String × DeviceInfo)
  | [] => ([], [])
  | p :: rest =>
    let r := checkLostAux g w now rest
    if isLost g w now p.2 then (lostEvent p.1 p.2 :: r.1, r.2)
    else (r.1, p :: r.2)

/-- `DeviceTracker.check_lost(now)`, returning the LOST events and the
updated tracker. -/
def check_lost (t : DeviceTracker) (now : Int) : List Event × DeviceTracker :=
  ((checkLostAux t.grace t.weak_grace now t.devices).1,
   { t with devices := (checkLostAux t.grace t.weak_grace now t.devices).2 })

/-- One call to a tracker operation, for reasoning about arbitrary
operation sequences. -/
inductive Op where
  | newScan
  | observe (obs : Observation)
  | finalize
  | expire (now : Int)
deriving DecidableEq, Repr

/-- Apply one operation to a tracker (events discarded). -/
def applyOp (t : DeviceTracker) : Op → DeviceTracker
  | Op.newScan => new_scan t
  | Op.observe obs => update t obs
  | Op.finalize => (finalize_scan t).2
  | Op.expire now => (check_lost t now).2

/-- Run a sequence of operations from a tracker state. -/
def runOps (t : DeviceTracker) (ops : List Op) : DeviceTracker :=
  ops.foldl applyOp t

/-- The events of `evs` concerning address `m`. -/
def eventsFor (m : String) (evs : List Event) : List Event :=
  evs.filter fun e => e.mac == m

/-- The concrete scenario of the spec and of `test_new_and_lost`: address
`AA:BB:CC:DD:EE:01`, name `Test`, public, signal strength −50, first seen
at time 0. -/
def obsA : Observation :=
  { timestamp := 0, mac := "AA:BB:CC:DD:EE:01", name := "Test",
    address_type := "public", rssi := -50 }

/-- The tracker of the concrete scenario after two full cycles
(`new_scan`/`update`/`finalize_scan` twice) on a fresh
`DeviceTracker(10, 20)`: the device is confirmed, last seen at 0,
signal strength −50. -/
def trackerA : DeviceTracker :=
  (finalize_scan (update (new_scan
    (finalize_scan (update (new_scan (mkTracker 10 20)) obsA)).2) obsA)).2

/-- The record held for the scenario device inside `trackerA`. -/
def recA : DeviceInfo :=
  { consecutive := 2, last_rssi := -50, name := "Test",
    address_type := "public", active := true, seen := true,
    last_seen := some 0 }

/-- The weak-signal scenario of `test_weak_signal_grace`: address
`AA:BB:CC:DD:EE:02`, name `Weak`, public, signal strength −95, first
seen at time 0. -/
def obsW : Observation :=
  { timestamp := 0, mac := "AA:BB:CC:DD:EE:02", name := "Weak",
    address_type := "public", rssi := -95 }

/-- The tracker of the weak-signal scenario after two full cycles on a
fresh `DeviceTracker(10, 20)`. -/
def trackerW : DeviceTracker :=
  (finalize_scan (update (new_scan
    (finalize_scan (update (new_scan (mkTracker 10 20)) obsW)).2) obsW)).2

/-- The record held for the weak-signal device inside `trackerW`. -/
def recW : DeviceInfo :=
  { consecutive := 2, last_rssi := -95, name := "Weak",
    address_type := "public", active := true, seen := true,
    last_seen := some 0 }

/-! ### Association-list lookup lemmas -/

theorem look_eq_none_iff (l : List (String × DeviceInfo)) (m : String) :
    look l m = none ↔ m ∉ l.map Prod.fst := by
  induction l with
  | nil => simp [look]
  | cons p rest ih =>
    by_cases h : p.1 = m
    · simp [look, h]
    · have h2 : ¬ (m = p.1) := fun hh => h hh.symm
      simp [look, h, ih, h2]

theorem look_none_of_not_mem {l : List (String × DeviceInfo)} {m : String}
    (h : m ∉ l.map Prod.fst) : look l m = none :=
  (look_eq_none_iff l m).2 h

theorem mem_of_look_eq_some {l : List (String × DeviceInfo)} {m : String} {i : DeviceInfo}
    (h : look l m = some i) : m ∈ l.map Prod.fst := by
  by_contra hc
  rw [look_none_of_not_mem hc] at h
  cases h

theorem look_map (f : String → DeviceInfo → DeviceInfo)
    (l : List (String × DeviceInfo)) (m : String) :
    look (l.map fun p => (p.1, f p.1 p.2)) m = (look l m).map (f m) := by
  induction l with
  | nil => rfl
  | cons p rest ih =>
    by_cases h : p.1 = m
    · subst h; simp [look]
    · simp [look, h, ih]

theorem keys_map_entry (f : String → DeviceInfo → DeviceInfo)
    (l : List (String × DeviceInfo)) :
    (l.map fun p => (p.1, f p.1 p.2)).map Prod.fst = l.map Prod.fst := by
  induction l with
  | nil => rfl
  | cons p rest ih => simp [ih]

theorem look_append (l l2 : List (String × DeviceInfo)) (m : String) :
    look (l ++ l2) m =
      match look l m with
      | some i => some i
      | none => look l2 m := by
  induction l with
  | nil => simp [look]
  | cons p rest ih =>
    by_cases h : p.1 = m
    · simp [look, h]
    · simp [look, h, ih]

theorem look_eq_some_of_mem {l : List (String × DeviceInfo)} {m : String} {i : DeviceInfo}
    (hnd : (l.map Prod.fst).Nodup) (hmem : (m, i) ∈ l) : look l m = some i := by
  induction l with
  | nil => cases hmem
  | cons p rest ih =>
    have hnd1 : (p.1 :: rest.map Prod.fst).Nodup := hnd
    have hnd2 := List.nodup_cons.1 hnd1
    rcases List.mem_cons.1 hmem with h | h
    · rw [← h]; simp [look]
    · have hp : p.1 ≠ m := by
        intro he
        exact hnd2.1 (he ▸ List.mem_map.2 ⟨(m, i), h, rfl⟩)
      simp [look, hp, ih hnd2.2 h]

theorem not_mem_keys_filter (q : String × DeviceInfo → Bool)
    {l : List (String × DeviceInfo)} {m : String}
    (h : m ∉ l.map Prod.fst) : m ∉ (l.filter q).map Prod.fst := by
  intro hc
  rcases List.mem_map.1 hc with ⟨p, hp, rfl⟩
  exact h (List.mem_map.2 ⟨p, (List.mem_filter.1 hp).1, rfl⟩)

theorem look_filter (q : String × DeviceInfo → Bool) {l : List (String × DeviceInfo)}
    {m : String} {i : DeviceInfo}
    (hnd : (l.map Prod.fst).Nodup) (h : look l m = some i) :
    look (l.filter q) m = if q (m, i) then some i else none := by
  induction l with
  | nil => cases h
  | cons p rest ih =>
    have hnd1 : (p.1 :: rest.map Prod.fst).Nodup := hnd
    have hnd2 := List.nodup_cons.1 hnd1
    by_cases hp : p.1 = m
    · have hi : p.2 = i := by simpa [look, hp] using h
      have hpi : p = (m, i) := by
        rcases p with ⟨pk, pv⟩
        simp only at hp hi
        rw [hp, hi]
      have hrest : m ∉ rest.map Prod.fst := hp ▸ hnd2.1
      by_cases hq : q p = true
      · rw [List.filter_cons_of_pos hq]
        simp [look, hp, hpi ▸ hq, hi]
      · rw [List.filter_cons_of_neg (by simpa using hq)]
        have : q (m, i) = false := by
          rw [← hpi]; simpa using hq
        simp [look_none_of_not_mem (not_mem_keys_filter q hrest), this]
    · have hrest : look rest m = some i := by simpa [look, hp] using h
      by_cases hq : q p = true
      · rw [List.filter_cons_of_pos hq]
        simp [look, hp, ih hnd2.2 hrest]
      · rw [List.filter_cons_of_neg (by simpa using hq)]
        exact ih hnd2.2 hrest

/-! ### The `finalize_scan` loop -/

theorem finalizeAux_cons (p : String × DeviceInfo) (rest : List (String × DeviceInfo)) :
    finalizeAux (p :: rest) =
      ((finalizeInfo p.1 p.2).2.toList ++ (finalizeAux rest).1,
       (p.1, finF p.1 p.2) :: (finalizeAux rest).2) := by
  cases hfi : (finalizeInfo p.1 p.2).2 <;> simp [finalizeAux, hfi]

theorem finalizeAux_snd (l : List (String × DeviceInfo)) :
    (finalizeAux l).2 = l.map fun p => (p.1, finF p.1 p.2) := by
  induction l with
  | nil => rfl
  | cons p rest ih => rw [finalizeAux_cons]; simp [ih]

theorem finalizeInfo_event_fields {k : String} {info : DeviceInfo} {e : Event}
    (h : (finalizeInfo k info).2 = some e) :
    e = { etype := EventType.NEW, mac := k, name := info.name, rssi := info.last_rssi } := by
  unfold finalizeInfo at h
  split at h
  · split at h
    · exact (Option.some.inj h).symm
    · cases h
  · cases h

theorem eventsFor_cons (m : String) (e : Event) (evs : List Event) :
    eventsFor m (e :: evs) =
      if e.mac = m then e :: eventsFor m evs else eventsFor m evs := by
  by_cases h : e.mac = m <;> simp [eventsFor, List.filter_cons, h]

theorem eventsFor_append (m : String) (l1 l2 : List Event) :
    eventsFor m (l1 ++ l2) = eventsFor m l1 ++ eventsFor m l2 := by
  simp [eventsFor, List.filter_append]

theorem eventsFor_finalizeAux_not_mem {l : List (String × DeviceInfo)} {m : String}
    (h : m ∉ l.map Prod.fst) :
    eventsFor m (finalizeAux l).1 = [] := by
  induction l with
  | nil => rfl
  | cons p rest ih =>
    have hp : p.1 ≠ m := fun he => h (by simp [he])
    have hrest : m ∉ rest.map Prod.fst := fun hc => h (by simp [hc])
    rw [finalizeAux_cons]
    show eventsFor m ((finalizeInfo p.1 p.2).2.toList ++ (finalizeAux rest).1) = []
    rw [eventsFor_append, ih hrest]
    cases hfi : (finalizeInfo p.1 p.2).2 with
    | none => simp [eventsFor]
    | some e =>
      have he := finalizeInfo_event_fields hfi
      simp [he, eventsFor_cons, hp, eventsFor]

theorem eventsFor_finalizeAux_look {l : List (String × DeviceInfo)} {m : String}
    {i : DeviceInfo}
    (hnd : (l.map Prod.fst).Nodup) (h : look l m = some i) :
    eventsFor m (finalizeAux l).1 = ((finalizeInfo m i).2).toList := by
  induction l with
  | nil => cases h
  | cons p rest ih =>
    have hnd1 : (p.1 :: rest.map Prod.fst).Nodup := hnd
    have hnd2 := List.nodup_cons.1 hnd1
    rw [finalizeAux_cons]
    show eventsFor m ((finalizeInfo p.1 p.2).2.toList ++ (finalizeAux rest).1) = _
    rw [eventsFor_append]
    by_cases hp : p.1 = m
    · have hi : p.2 = i := by simpa [look, hp] using h
      have hrest : m ∉ rest.map Prod.fst := hp ▸ hnd2.1
      rw [eventsFor_finalizeAux_not_mem hrest]
      cases hfi : (finalizeInfo p.1 p.2).2 with
      | none => rw [hp, hi] at hfi; simp [hfi, eventsFor]
      | some e =>
        have he := finalizeInfo_event_fields hfi
        rw [hp, hi] at hfi
        simp [hfi, he, eventsFor_cons, hp, eventsFor, hi]
    · have hrest : look rest m = some i := by simpa [look, hp] using h
      rw [ih hnd2.2 hrest]
      cases hfi : (finalizeInfo p.1 p.2).2 with
      | none => simp [eventsFor]
      | some e =>
        have he := finalizeInfo_event_fields hfi
        simp [he, eventsFor_cons, hp, eventsFor]

/-! ### The `check_lost` loop -/

theorem checkLostAux_snd (g w now : Int) (l : List (String × DeviceInfo)) :
    (checkLostAux g w now l).2 = l.filter fun p => !(isLost g w now p.2) := by
  induction l with
  | nil => rfl
  | cons p rest ih =>
    by_cases h : isLost g w now p.2 = true <;>
      simp [checkLostAux, h, ih, List.filter_cons]

theorem checkLostAux_fst (g w now : Int) (l : List (String × DeviceInfo)) :
    (checkLostAux g w now l).1 =
      (l.filter fun p => isLost g w now p.2).map fun p => lostEvent p.1 p.2 := by
  induction l with
  | nil => rfl
  | cons p rest ih =>
    by_cases h : isLost g w now p.2 = true <;>
      simp [checkLostAux, h, ih, List.filter_cons]

theorem eventsFor_checkLostAux_not_mem (g w now : Int)
    {l : List (String × DeviceInfo)} {m : String}
    (h : m ∉ l.map Prod.fst) :
    eventsFor m (checkLostAux g w now l).1 = [] := by
  induction l with
  | nil => rfl
  | cons p rest ih =>
    have hp : p.1 ≠ m := fun he => h (by simp [he])
    have hrest : m ∉ rest.map Prod.fst := fun hc => h (by simp [hc])
    by_cases hl : isLost g w now p.2 = true <;>
      simp [checkLostAux, hl, eventsFor_cons, lostEvent, hp, ih hrest]

theorem eventsFor_checkLostAux_look (g w now : Int)
    {l : List (String × DeviceInfo)} {m : String} {i : DeviceInfo}
    (hnd : (l.map Prod.fst).Nodup) (h : look l m = some i) :
    eventsFor m (checkLostAux g w now l).1 =
      if isLost g w now i then [lostEvent m i] else [] := by
  induction l with
  | nil => cases h
  | cons p rest ih =>
    have hnd1 : (p.1 :: rest.map Prod.fst).Nodup := hnd
    have hnd2 := List.nodup_cons.1 hnd1
    by_cases hp : p.1 = m
    · have hi : p.2 = i := by simpa [look, hp] using h
      have hrest : m ∉ rest.map Prod.fst := hp ▸ hnd2.1
      by_cases hl : isLost g w now p.2 = true
      · have hli : isLost g w now i = true := by rw [← hi]; exact hl
        simp [checkLostAux, hl, hli, eventsFor_cons, hp, hi, lostEvent,
          eventsFor_checkLostAux_not_mem g w now hrest]
      · have hli : ¬ (isLost g w now i = true) := fun hc => hl (by rw [hi]; exact hc)
        simp [checkLostAux, hl, hli,
          eventsFor_checkLostAux_not_mem g w now hrest]
    · have hrest : look rest m = some i := by simpa [look, hp] using h
      by_cases hl : isLost g w now p.2 = true <;>
        simp [checkLostAux, hl, eventsFor_cons, lostEvent, hp, ih hnd2.2 hrest]

/-! ### Per-operation effect on keys and lookup -/

theorem keys_new_scan (t : DeviceTracker) :
    (new_scan t).devices.map Prod.fst = t.devices.map Prod.fst :=
  keys_map_entry clearSeen t.devices

theorem keys_finalize (t : DeviceTracker) :
    ((finalize_scan t).2).devices.map Prod.fst = t.devices.map Prod.fst := by
  show ((finalizeAux t.devices).2).map Prod.fst = _
  rw [finalizeAux_snd]
  exact keys_map_entry finF t.devices

theorem keys_update (t : DeviceTracker) (obs : Observation) :
    (update t obs).devices.map Prod.fst =
      if obs.mac ∈ t.devices.map Prod.fst then t.devices.map Prod.fst
      else t.devices.map Prod.fst ++ [obs.mac] := by
  by_cases h : obs.mac ∈ t.devices.map Prod.fst <;>
    simp [update, h, keys_map_entry]

theorem check_lost_snd (t : DeviceTracker) (now : Int) :
    ((check_lost t now).2).devices =
      t.devices.filter fun p => !(isLost t.grace t.weak_grace now p.2) :=
  checkLostAux_snd t.grace t.weak_grace now t.devices

theorem check_lost_fst (t : DeviceTracker) (now : Int) :
    (check_lost t now).1 =
      (t.devices.filter fun p => isLost t.grace t.weak_grace now p.2).map
        fun p => lostEvent p.1 p.2 :=
  checkLostAux_fst t.grace t.weak_grace now t.devices

theorem look_new_scan (t : DeviceTracker) (m : String) :
    look (new_scan t).devices m = (look t.devices m).map (clearSeen m) :=
  look_map clearSeen t.devices m

theorem look_finalize (t : DeviceTracker) (m : String) :
    look ((finalize_scan t).2).devices m = (look t.devices m).map (finF m) := by
  show look (finalizeAux t.devices).2 m = _
  rw [finalizeAux_snd]
  exact look_map finF t.devices m

theorem look_update_self_of_look (t : DeviceTracker) (obs : Observation) (i : DeviceInfo)
    (h : look t.devices obs.mac = some i) :
    look (update t obs).devices obs.mac = some (setObs obs i) := by
  have hmem : obs.mac ∈ t.devices.map Prod.fst := mem_of_look_eq_some h
  show look ((if obs.mac ∈ t.devices.map Prod.fst then t.devices
      else t.devices ++ [(obs.mac, defaultInfo obs)]).map
        fun p => (p.1, updF obs p.1 p.2)) obs.mac = _
  rw [if_pos hmem, look_map (updF obs), h]
  simp [updF]

theorem look_update_self_new (t : DeviceTracker) (obs : Observation)
    (h : look t.devices obs.mac = none) :
    look (update t obs).devices obs.mac = some (setObs obs (defaultInfo obs)) := by
  have hmem : obs.mac ∉ t.devices.map Prod.fst := (look_eq_none_iff _ _).1 h
  show look ((if obs.mac ∈ t.devices.map Prod.fst then t.devices
      else t.devices ++ [(obs.mac, defaultInfo obs)]).map
        fun p => (p.1, updF obs p.1 p.2)) obs.mac = _
  rw [if_neg hmem, look_map (updF obs), look_append, h]
  simp [look, updF]

theorem look_update_other (t : DeviceTracker) (obs : Observation) (m : String)
    (h : m ≠ obs.mac) :
    look (update t obs).devices m = look t.devices m := by
  show look ((if obs.mac ∈ t.devices.map Prod.fst then t.devices
      else t.devices ++ [(obs.mac, defaultInfo obs)]).map
        fun p => (p.1, updF obs p.1 p.2)) m = _
  by_cases hmem : obs.mac ∈ t.devices.map Prod.fst
  · rw [if_pos hmem, look_map (updF obs)]
    cases hl : look t.devices m <;> simp [updF, h]
  · rw [if_neg hmem, look_map (updF obs), look_append]
    cases hl : look t.devices m <;> simp [look, updF, h, Ne.symm h]

theorem look_check_lost (t : DeviceTracker) (now : Int) {m : String} {i : DeviceInfo}
    (hnd : (t.devices.map Prod.fst).Nodup) (h : look t.devices m = some i) :
    look ((check_lost t now).2).devices m =
      if isLost t.grace t.weak_grace now i then none else some i := by
  rw [check_lost_snd]
  rw [look_filter (fun p => !(isLost t.grace t.weak_grace now p.2)) hnd h]
  by_cases hl : isLost t.grace t.weak_grace now i = true <;> simp [hl]

/-! ### Nodup preservation -/

theorem nodup_keys_new_scan (t : DeviceTracker)
    (h : (t.devices.map Prod.fst).Nodup) :
    ((new_scan t).devices.map Prod.fst).Nodup := by
  rw [keys_new_scan]; exact h

theorem nodup_keys_finalize (t : DeviceTracker)
    (h : (t.devices.map Prod.fst).Nodup) :
    (((finalize_scan t).2).devices.map Prod.fst).Nodup := by
  rw [keys_finalize]; exact h

theorem nodup_keys_update (t : DeviceTracker) (obs : Observation)
    (h : (t.devices.map Prod.fst).Nodup) :
    ((update t obs).devices.map Prod.fst).Nodup := by
  rw [keys_update]
  by_cases hm : obs.mac ∈ t.devices.map Prod.fst
  · simpa [hm] using h
  · simp [hm, List.nodup_append, h]

theorem nodup_keys_check_lost (t : DeviceTracker) (now : Int)
    (h : (t.devices.map Prod.fst).Nodup) :
    (((check_lost t now).2).devices.map Prod.fst).Nodup := by
  rw [check_lost_snd]
  exact List.Nodup.sublist (List.Sublist.map Prod.fst (List.filter_sublist _)) h

/-! ### Field bookkeeping for `finalizeInfo` -/

theorem finF_not_seen {i : DeviceInfo} (h : i.seen = false) (k : String) :
    finF k i = { i with consecutive := 0 } := by
  simp [finF, finalizeInfo, h]

theorem finF_last_seen (k : String) (i : DeviceInfo) :
    (finF k i).last_seen = i.last_seen := by
  unfold finF finalizeInfo
  split
  · split <;> rfl
  · rfl

theorem finalizeInfo_none_of_active {k : String} {i : DeviceInfo}
    (h : i.active = true) : (finalizeInfo k i).2 = none := by
  unfold finalizeInfo
  by_cases hs : i.seen = true <;> simp [hs, h]

/-! ### Claims -/

/-- C1: an address with no record, observed in exactly two consecutive
cycles, yields no NEW event at the first `finalize_scan` and exactly one
NEW event at the second, carrying the address, the last known name and
the last known signal strength; afterwards the record is active, and any
`finalize_scan` of any tracker whose record for the address is active
yields no further NEW event for it. -/
theorem C1_two_cycle_confirmation (t0 : DeviceTracker) (m : String)
    (obs1 obs2 : Observation)
    (hnd : (t0.devices.map Prod.fst).Nodup)
    (hm : m ∉ t0.devices.map Prod.fst)
    (h1 : obs1.mac = m) (h2 : obs2.mac = m) :
    eventsFor m (finalize_scan (update (new_scan t0) obs1)).1 = [] ∧
    eventsFor m (finalize_scan (update (new_scan
        (finalize_scan (update (new_scan t0) obs1)).2) obs2)).1 =
      [{ etype := EventType.NEW, mac := m, name := obs2.name, rssi := obs2.rssi }] ∧
    look ((finalize_scan (update (new_scan
        (finalize_scan (update (new_scan t0) obs1)).2) obs2)).2).devices m =
      some { consecutive := 2, last_rssi := obs2.rssi, name := obs2.name,
             address_type := obs2.address_type, active := true, seen := true,
             last_seen := some obs2.timestamp } ∧
    (∀ (u : DeviceTracker) (i : DeviceInfo),
      (u.devices.map Prod.fst).Nodup → look u.devices m = some i → i.active = true →
      eventsFor m (finalize_scan u).1 = []) := by
  have hm1 : m ∉ (new_scan t0).devices.map Prod.fst := by
    rw [keys_new_scan]; exact hm
  have hnd1 : ((new_scan t0).devices.map Prod.fst).Nodup := nodup_keys_new_scan t0 hnd
  have l1 : look (new_scan t0).devices obs1.mac = none := by
    rw [h1]; exact look_none_of_not_mem hm1
  have l2 : look (update (new_scan t0) obs1).devices m
      = some (setObs obs1 (defaultInfo obs1)) := by
    have := look_update_self_new (new_scan t0) obs1 l1
    rwa [h1] at this
  have hnd2 : ((update (new_scan t0) obs1).devices.map Prod.fst).Nodup :=
    nodup_keys_update _ obs1 hnd1
  have e1 : eventsFor m (finalize_scan (update (new_scan t0) obs1)).1
      = ((finalizeInfo m (setObs obs1 (defaultInfo obs1))).2).toList :=
    eventsFor_finalizeAux_look hnd2 l2
  have fi1 : (finalizeInfo m (setObs obs1 (defaultInfo obs1))).2 = none := by
    simp [finalizeInfo, setObs, defaultInfo]
  have hnd3 : (((finalize_scan (update (new_scan t0) obs1)).2).devices.map Prod.fst).Nodup :=
    nodup_keys_finalize _ hnd2
  have l3 : look ((finalize_scan (update (new_scan t0) obs1)).2).devices m
      = some { consecutive := 1, last_rssi := obs1.rssi, name := obs1.name,
               address_type := obs1.address_type, active := false, seen := true,
               last_seen := some obs1.timestamp } := by
    rw [look_finalize, l2]
    simp [finF, finalizeInfo, setObs, defaultInfo]
  have hnd4 : ((new_scan ((finalize_scan (update (new_scan t0) obs1)).2)).devices.map
      Prod.fst).Nodup := nodup_keys_new_scan _ hnd3
  have l4 : look (new_scan ((finalize_scan (update (new_scan t0) obs1)).2)).devices obs2.mac
      = some { consecutive := 1, last_rssi := obs1.rssi, name := obs1.name,
               address_type := obs1.address_type, active := false, seen := false,
               last_seen := some obs1.timestamp } := by
    rw [h2, look_new_scan, l3]; rfl
  have l5 : look (update (new_scan
      ((finalize_scan (update (new_scan t0) obs1)).2)) obs2).devices m
      = some (setObs obs2
          { consecutive := 1, last_rssi := obs1.rssi, name := obs1.name,
            address_type := obs1.address_type, active := false, seen := false,
            last_seen := some obs1.timestamp }) := by
    have := look_update_self_of_look _ obs2 _ l4
    rwa [h2] at this
  have hnd5 : ((update (new_scan ((finalize_scan (update (new_scan t0) obs1)).2))
      obs2).devices.map Prod.fst).Nodup := nodup_keys_update _ obs2 hnd4
  have e2 : eventsFor m (finalize_scan (update (new_scan
      ((finalize_scan (update (new_scan t0) obs1)).2)) obs2)).1
      = ((finalizeInfo m (setObs obs2
          { consecutive := 1, last_rssi := obs1.rssi, name := obs1.name,
            address_type := obs1.address_type, active := false, seen := false,
            last_seen := some obs1.timestamp })).2).toList :=
    eventsFor_finalizeAux_look hnd5 l5
  have fi2 : (finalizeInfo m (setObs obs2
      { consecutive := 1, last_rssi := obs1.rssi, name := obs1.name,
        address_type := obs1.address_type, active := false, seen := false,
        last_seen := some obs1.timestamp })).2
      = some { etype := EventType.NEW, mac := m, name := obs2.name, rssi := obs2.rssi } := by
    simp [finalizeInfo, setObs]
  have l6 : look ((finalize_scan (update (new_scan
      ((finalize_scan (update (new_scan t0) obs1)).2)) obs2)).2).devices m
      = some { consecutive := 2, last_rssi := obs2.rssi, name := obs2.name,
               address_type := obs2.address_type, active := true, seen := true,
               last_seen := some obs2.timestamp } := by
    rw [look_finalize, l5]
    simp [finF, finalizeInfo, setObs]
  refine ⟨by rw [e1, fi1]; rfl, by rw [e2, fi2]; rfl, l6, ?_⟩
  intro u i hndu hlu hact
  have e : eventsFor m (finalize_scan u).1 = ((finalizeInfo m i).2).toList :=
    eventsFor_finalizeAux_look hndu hlu
  rw [e, finalizeInfo_none_of_active hact]
  rfl

/-- C1 witness: the general confirmation theorem applied to the concrete
scenario address on a fresh tracker. -/
theorem C1_two_cycle_confirmation_witness :
    ((mkTracker 10 20).devices.map Prod.fst).Nodup ∧
    "AA:BB:CC:DD:EE:01" ∉ (mkTracker 10 20).devices.map Prod.fst ∧
    eventsFor "AA:BB:CC:DD:EE:01"
      (finalize_scan (update (new_scan (mkTracker 10 20)) obsA)).1 = [] ∧
    eventsFor "AA:BB:CC:DD:EE:01" (finalize_scan (update (new_scan
        (finalize_scan (update (new_scan (mkTracker 10 20)) obsA)).2) obsA)).1 =
      [{ etype := EventType.NEW, mac := "AA:BB:CC:DD:EE:01", name := obsA.name,
         rssi := obsA.rssi }] := by
  have h := C1_two_cycle_confirmation (mkTracker 10 20) "AA:BB:CC:DD:EE:01" obsA obsA
    (by decide) (by decide) rfl rfl
  exact ⟨by decide, by decide, h.1, h.2.1⟩

/-- C2: an untracked address observed once and finalized immediately
yields no NEW event for it, whatever its signal strength and whatever
other addresses the tracker holds. -/
theorem C2_debounce (t : DeviceTracker) (obs : Observation)
    (hnd : (t.devices.map Prod.fst).Nodup)
    (hm : obs.mac ∉ t.devices.map Prod.fst) :
    eventsFor obs.mac (finalize_scan (update t obs)).1 = [] := by
  have l1 : look (update t obs).devices obs.mac = some (setObs obs (defaultInfo obs)) :=
    look_update_self_new t obs (look_none_of_not_mem hm)
  have hnd2 := nodup_keys_update t obs hnd
  have e : eventsFor obs.mac (finalize_scan (update t obs)).1
      = ((finalizeInfo obs.mac (setObs obs (defaultInfo obs))).2).toList :=
    eventsFor_finalizeAux_look hnd2 l1
  rw [e]
  simp [finalizeInfo, setObs, defaultInfo]

/-- C2 witness: the debounce theorem applied to the concrete scenario
observation on a fresh tracker. -/
theorem C2_debounce_witness :
    ((mkTracker 10 20).devices.map Prod.fst).Nodup ∧
    obsA.mac ∉ (mkTracker 10 20).devices.map Prod.fst ∧
    eventsFor obsA.mac (finalize_scan (update (mkTracker 10 20) obsA)).1 = [] :=
  ⟨by decide, by decide, C2_debounce (mkTracker 10 20) obsA (by decide) (by decide)⟩

/-- C5: a confirmed device missed for one cycle has its consecutive-hit
count reset to 0 by that cycle's `finalize_scan` while its record stays
present with `active` still true, and re-observing it the next cycle
produces no second NEW event. -/
theorem C5_confirmed_miss_no_duplicate (t : DeviceTracker) (m : String) (i : DeviceInfo)
    (obs : Observation)
    (hnd : (t.devices.map Prod.fst).Nodup)
    (hl : look t.devices m = some i)
    (hact : i.active = true)
    (hmac : obs.mac = m) :
    eventsFor m (finalize_scan (new_scan t)).1 = [] ∧
    look ((finalize_scan (new_scan t)).2).devices m
      = some { i with seen := false, consecutive := 0 } ∧
    ({ i with seen := false, consecutive := 0 } : DeviceInfo).active = true ∧
    eventsFor m (finalize_scan (update (new_scan
        ((finalize_scan (new_scan t)).2)) obs)).1 = [] := by
  have hnd1 : ((new_scan t).devices.map Prod.fst).Nodup := nodup_keys_new_scan t hnd
  have l1 : look (new_scan t).devices m = some (clearSeen m i) := by
    rw [look_new_scan, hl]; rfl
  have e1 : eventsFor m (finalize_scan (new_scan t)).1
      = ((finalizeInfo m (clearSeen m i)).2).toList :=
    eventsFor_finalizeAux_look hnd1 l1
  have fi1 : (finalizeInfo m (clearSeen m i)).2 = none := by
    simp [finalizeInfo, clearSeen]
  have hfm : finF m (clearSeen m i) = { i with seen := false, consecutive := 0 } := by
    rw [finF_not_seen rfl]
    simp [clearSeen]
  have l2 : look ((finalize_scan (new_scan t)).2).devices m
      = some { i with seen := false, consecutive := 0 } := by
    rw [look_finalize, l1]
    simp [hfm]
  have hnd2 : (((finalize_scan (new_scan t)).2).devices.map Prod.fst).Nodup :=
    nodup_keys_finalize _ hnd1
  have hnd3 : ((new_scan ((finalize_scan (new_scan t)).2)).devices.map Prod.fst).Nodup :=
    nodup_keys_new_scan _ hnd2
  have l3 : look (new_scan ((finalize_scan (new_scan t)).2)).devices obs.mac
      = some { i with seen := false, consecutive := 0 } := by
    rw [hmac, look_new_scan, l2]; rfl
  have l4 : look (update (new_scan ((finalize_scan (new_scan t)).2)) obs).devices m
      = some (setObs obs { i with seen := false, consecutive := 0 }) := by
    have := look_update_self_of_look _ obs _ l3
    rwa [hmac] at this
  have hnd4 : ((update (new_scan ((finalize_scan (new_scan t)).2))
      obs).devices.map Prod.fst).Nodup := nodup_keys_update _ obs hnd3
  have e2 : eventsFor m (finalize_scan (update (new_scan
      ((finalize_scan (new_scan t)).2)) obs)).1
      = ((finalizeInfo m (setObs obs { i with seen := false, consecutive := 0 })).2).toList :=
    eventsFor_finalizeAux_look hnd4 l4
  have fi2 : (finalizeInfo m (setObs obs { i with seen := false, consecutive := 0 })).2
      = none := finalizeInfo_none_of_active hact
  exact ⟨by rw [e1, fi1]; rfl, l2, hact, by rw [e2, fi2]; rfl⟩

/-- C5 witness: the no-duplicate-NEW theorem applied to a concrete
confirmed single-record tracker. -/
theorem C5_confirmed_miss_no_duplicate_witness :
    (trackerA.devices.map Prod.fst).Nodup ∧
    look trackerA.devices "AA:BB:CC:DD:EE:01" = some recA ∧
    recA.active = true ∧
    eventsFor "AA:BB:CC:DD:EE:01" (finalize_scan (update (new_scan
        ((finalize_scan (new_scan trackerA)).2)) obsA)).1 = [] := by
  have h := C5_confirmed_miss_no_duplicate trackerA "AA:BB:CC:DD:EE:01" recA obsA
    (by decide) (by decide) rfl rfl
  exact ⟨by decide, by decide, rfl, h.2.2.2⟩

/-- C3 counterexample: in the concrete confirmed strong-signal scenario
(grace 10, weak_grace 20, last seen at 0, signal strength −50 ≥ −90) the
FIRST `check_lost` evaluated at time 11 already yields the LOST event
(11 s > 10 s grace), and a second `check_lost` at the same time yields
nothing for the address — the claim asserts the opposite on both
counts. -/
theorem C3_counterexample :
    eventsFor "AA:BB:CC:DD:EE:01" (check_lost trackerA 11).1 =
      [{ etype := EventType.LOST, mac := "AA:BB:CC:DD:EE:01",
         name := "Test", rssi := -50 }] ∧
    eventsFor "AA:BB:CC:DD:EE:01" (check_lost ((check_lost trackerA 11).2) 11).1 = [] := by
  decide

/-- C3 (amended): with grace 10 and weak_grace 20, a confirmed device
whose last signal strength is ≥ −90, last observed at `t0` with no
further observations, yields its LOST event on the FIRST `check_lost`
evaluated at `t0 + 11` (11 s > 10 s grace), and a subsequent
`check_lost` at the same time yields no event for it. -/
theorem C3_grace_strong_signal (t : DeviceTracker) (m : String) (i : DeviceInfo) (t0 : Int)
    (hg : t.grace = 10) (hw : t.weak_grace = 20)
    (hnd : (t.devices.map Prod.fst).Nodup)
    (hl : look t.devices m = some i)
    (hact : i.active = true)
    (hseen : i.last_seen = some t0)
    (hrssi : -90 ≤ i.last_rssi) :
    eventsFor m (check_lost t (t0 + 11)).1 = [lostEvent m i] ∧
    eventsFor m (check_lost ((check_lost t (t0 + 11)).2) (t0 + 11)).1 = [] := by
  have hlost : isLost t.grace t.weak_grace (t0 + 11) i = true := by
    simp only [isLost, hseen, effectiveGrace, hg, hw]
    rw [if_neg (not_lt.2 hrssi)]
    simp only [decide_eq_true_eq]
    omega
  have e1 : eventsFor m (check_lost t (t0 + 11)).1
      = if isLost t.grace t.weak_grace (t0 + 11) i then [lostEvent m i] else [] :=
    eventsFor_checkLostAux_look t.grace t.weak_grace (t0 + 11) hnd hl
  have l2 : look ((check_lost t (t0 + 11)).2).devices m = none := by
    rw [look_check_lost t (t0 + 11) hnd hl, if_pos hlost]
  have hm2 : m ∉ ((check_lost t (t0 + 11)).2).devices.map Prod.fst :=
    (look_eq_none_iff _ _).1 l2
  refine ⟨by rw [e1, if_pos hlost], ?_⟩
  exact eventsFor_checkLostAux_not_mem _ _ _ hm2

/-- C3 witness: the amended grace theorem applied to the concrete
strong-signal scenario tracker. -/
theorem C3_grace_strong_signal_witness :
    trackerA.grace = 10 ∧ trackerA.weak_grace = 20 ∧
    (trackerA.devices.map Prod.fst).Nodup ∧
    look trackerA.devices "AA:BB:CC:DD:EE:01" = some recA ∧
    recA.active = true ∧ recA.last_seen = some 0 ∧ (-90 : Int) ≤ recA.last_rssi ∧
    eventsFor "AA:BB:CC:DD:EE:01" (check_lost trackerA (0 + 11)).1 =
      [lostEvent "AA:BB:CC:DD:EE:01" recA] := by
  have h := C3_grace_strong_signal trackerA "AA:BB:CC:DD:EE:01" recA 0
    rfl rfl (by decide) (by decide) rfl rfl (by decide)
  exact ⟨rfl, rfl, by decide, by decide, rfl, rfl, by decide, h.1⟩

/-- C4: `check_lost` uses `weak_grace` exactly when the last recorded
signal strength is strictly below −90 (a record at exactly −90 uses the
normal grace), and it emits a LOST event and removes the record if and
only if the silence strictly exceeds that effective grace; with grace 10
and weak_grace 20 a record with signal strength < −90 last seen at
`last` survives `check_lost` at `last + 11` and expires at
`last + 21`. -/
theorem C4_effective_grace (t : DeviceTracker) (m : String) (i : DeviceInfo) (last : Int)
    (hnd : (t.devices.map Prod.fst).Nodup)
    (hl : look t.devices m = some i)
    (hs : i.last_seen = some last) :
    (∀ now : Int,
      (eventsFor m (check_lost t now).1 =
        if now - last > (if i.last_rssi < -90 then t.weak_grace else t.grace)
        then [lostEvent m i] else []) ∧
      (look ((check_lost t now).2).devices m =
        if now - last > (if i.last_rssi < -90 then t.weak_grace else t.grace)
        then none else some i)) ∧
    (t.grace = 10 → t.weak_grace = 20 → i.last_rssi < -90 →
      eventsFor m (check_lost t (last + 11)).1 = [] ∧
      eventsFor m (check_lost t (last + 21)).1 = [lostEvent m i]) := by
  have hiso : ∀ now : Int, isLost t.grace t.weak_grace now i
      = decide (now - last > if i.last_rssi < -90 then t.weak_grace else t.grace) := by
    intro now
    simp [isLost, hs, effectiveGrace]
  have hmain : ∀ now : Int,
      (eventsFor m (check_lost t now).1 =
        if now - last > (if i.last_rssi < -90 then t.weak_grace else t.grace)
        then [lostEvent m i] else []) ∧
      (look ((check_lost t now).2).devices m =
        if now - last > (if i.last_rssi < -90 then t.weak_grace else t.grace)
        then none else some i) := by
    intro now
    have e1 : eventsFor m (check_lost t now).1
        = if isLost t.grace t.weak_grace now i then [lostEvent m i] else [] :=
      eventsFor_checkLostAux_look t.grace t.weak_grace now hnd hl
    have e2 := look_check_lost t now hnd hl
    rw [e1, e2, hiso now]
    constructor <;>
      by_cases h : now - last > (if i.last_rssi < -90 then t.weak_grace else t.grace) <;>
        simp [h]
  refine ⟨hmain, fun hg hw hr => ?_⟩
  constructor
  · rw [(hmain (last + 11)).1, if_pos hr, hw, if_neg (by omega)]
  · rw [(hmain (last + 21)).1, if_pos hr, hw, if_pos (by omega)]

/-- C4 witness: the effective-grace theorem applied to the concrete
weak-signal scenario tracker. -/
theorem C4_effective_grace_witness :
    (trackerW.devices.map Prod.fst).Nodup ∧
    look trackerW.devices "AA:BB:CC:DD:EE:02" = some recW ∧
    recW.last_seen = some 0 ∧
    eventsFor "AA:BB:CC:DD:EE:02" (check_lost trackerW (0 + 11)).1 = [] ∧
    eventsFor "AA:BB:CC:DD:EE:02" (check_lost trackerW (0 + 21)).1 =
      [lostEvent "AA:BB:CC:DD:EE:02" recW] := by
  have h := C4_effective_grace trackerW "AA:BB:CC:DD:EE:02" recW 0
    (by decide) (by decide) rfl
  have h2 := h.2 rfl rfl (by decide)
  exact ⟨by decide, by decide, rfl, h2.1, h2.2⟩

/-- C6: once a `check_lost` call emits a LOST event for an address, its
record is gone: that address looks up to nothing afterwards, every later
`check_lost` emits nothing for it and leaves it absent, and only a fresh
`update` recreates it as a brand-new record with `active = false` and
`consecutive = 0`. -/
theorem C6_eviction_idempotent (t : DeviceTracker) (m : String) (now : Int)
    (hnd : (t.devices.map Prod.fst).Nodup)
    (hev : m ∈ (check_lost t now).1.map Event.mac) :
    look ((check_lost t now).2).devices m = none ∧
    (∀ (u : DeviceTracker) (now2 : Int), look u.devices m = none →
      eventsFor m (check_lost u now2).1 = [] ∧
      look ((check_lost u now2).2).devices m = none) ∧
    (∀ (u : DeviceTracker) (obs : Observation), look u.devices m = none → obs.mac = m →
      look (update u obs).devices m = some (setObs obs (defaultInfo obs)) ∧
      (setObs obs (defaultInfo obs)).active = false ∧
      (setObs obs (defaultInfo obs)).consecutive = 0) := by
  have hx : ∃ j, (m, j) ∈ t.devices ∧ isLost t.grace t.weak_grace now j = true := by
    rw [check_lost_fst] at hev
    rcases List.mem_map.1 hev with ⟨e, he, hmac⟩
    rcases List.mem_map.1 he with ⟨p, hp, rfl⟩
    have hpf := List.mem_filter.1 hp
    have hpm : p.1 = m := hmac
    refine ⟨p.2, ?_, hpf.2⟩
    rw [← hpm]
    exact hpf.1
  rcases hx with ⟨j, hj, hjl⟩
  have hlj : look t.devices m = some j := look_eq_some_of_mem hnd hj
  have h0 : look ((check_lost t now).2).devices m = none := by
    rw [look_check_lost t now hnd hlj, if_pos hjl]
  refine ⟨h0, ?_, ?_⟩
  · intro u now2 hu
    have hmem : m ∉ u.devices.map Prod.fst := (look_eq_none_iff _ _).1 hu
    refine ⟨eventsFor_checkLostAux_not_mem _ _ _ hmem, ?_⟩
    rw [check_lost_snd]
    exact look_none_of_not_mem (not_mem_keys_filter _ hmem)
  · intro u obs hu hobs
    refine ⟨?_, rfl, rfl⟩
    have := look_update_self_new u obs (by rw [hobs]; exact hu)
    rwa [hobs] at this

/-- C6 witness: the eviction-idempotence theorem applied to the concrete
strong-signal scenario tracker expiring at time 11. -/
theorem C6_eviction_idempotent_witness :
    (trackerA.devices.map Prod.fst).Nodup ∧
    "AA:BB:CC:DD:EE:01" ∈ (check_lost trackerA 11).1.map Event.mac ∧
    look ((check_lost trackerA 11).2).devices "AA:BB:CC:DD:EE:01" = none := by
  have h := C6_eviction_idempotent trackerA "AA:BB:CC:DD:EE:01" 11
    (by decide) (by decide)
  exact ⟨by decide, by decide, h.1⟩

/-- Any key present after running a sequence of operations was either
present initially or introduced by an `observe` of that address. -/
theorem keys_runOps_from_observe (ops : List Op) (t : DeviceTracker) (m : String)
    (h : m ∈ (runOps t ops).devices.map Prod.fst) :
    m ∈ t.devices.map Prod.fst ∨ ∃ obs, Op.observe obs ∈ ops ∧ obs.mac = m := by
  induction ops generalizing t with
  | nil => exact Or.inl h
  | cons op ops ih =>
    rcases ih (applyOp t op) h with h1 | ⟨obs, hin, hmac⟩
    · cases op with
      | newScan =>
        rw [show applyOp t Op.newScan = new_scan t from rfl, keys_new_scan] at h1
        exact Or.inl h1
      | observe obs =>
        rw [show applyOp t (Op.observe obs) = update t obs from rfl, keys_update] at h1
        by_cases hm : obs.mac ∈ t.devices.map Prod.fst
        · rw [if_pos hm] at h1
          exact Or.inl h1
        · rw [if_neg hm] at h1
          rcases List.mem_append.1 h1 with h2 | h2
          · exact Or.inl h2
          · exact Or.inr ⟨obs, List.mem_cons_self _ _, (List.mem_singleton.1 h2).symm⟩
      | finalize =>
        rw [show applyOp t Op.finalize = (finalize_scan t).2 from rfl, keys_finalize] at h1
        exact Or.inl h1
      | expire now =>
        rw [show applyOp t (Op.expire now) = (check_lost t now).2 from rfl,
          check_lost_snd] at h1
        rcases List.mem_map.1 h1 with ⟨p, hp, rfl⟩
        exact Or.inl (List.mem_map.2 ⟨p, (List.mem_filter.1 hp).1, rfl⟩)
    · exact Or.inr ⟨obs, List.mem_cons_of_mem _ hin, hmac⟩

/-- C7: record existence is governed exactly as the spec states:
`new_scan` and `finalize_scan` never add or remove records; `update`
leaves the key set unchanged when its address is tracked and appends
exactly that address otherwise; `check_lost` keeps exactly the records
that are not expired and emits one LOST event per removed record; and a
key can only be present after a sequence of operations on a fresh
tracker if some `observe` of that address occurred in it. -/
theorem C7_record_existence :
    (∀ t : DeviceTracker,
      (new_scan t).devices.map Prod.fst = t.devices.map Prod.fst) ∧
    (∀ t : DeviceTracker,
      ((finalize_scan t).2).devices.map Prod.fst = t.devices.map Prod.fst) ∧
    (∀ (t : DeviceTracker) (obs : Observation),
      (update t obs).devices.map Prod.fst =
        if obs.mac ∈ t.devices.map Prod.fst then t.devices.map Prod.fst
        else t.devices.map Prod.fst ++ [obs.mac]) ∧
    (∀ (t : DeviceTracker) (now : Int),
      ((check_lost t now).2).devices =
        t.devices.filter (fun p => !(isLost t.grace t.weak_grace now p.2)) ∧
      (check_lost t now).1 =
        (t.devices.filter fun p => isLost t.grace t.weak_grace now p.2).map
          fun p => lostEvent p.1 p.2) ∧
    (∀ (g w : Int) (ops : List Op) (m : String),
      m ∈ (runOps (mkTracker g w) ops).devices.map Prod.fst →
      ∃ obs, Op.observe obs ∈ ops ∧ obs.mac = m) := by
  refine ⟨keys_new_scan, keys_finalize, keys_update,
    fun t now => ⟨check_lost_snd t now, check_lost_fst t now⟩, ?_⟩
  intro g w ops m h
  rcases keys_runOps_from_observe ops (mkTracker g w) m h with h1 | h2
  · cases h1
  · exact h2

/-- C7 witness: the existence characterization applied to a one-operation
sequence observing the concrete scenario address on a fresh tracker. -/
theorem C7_record_existence_witness :
    "AA:BB:CC:DD:EE:01" ∈
      (runOps (mkTracker 10 20) [Op.observe obsA]).devices.map Prod.fst ∧
    ∃ obs, Op.observe obs ∈ [Op.observe obsA] ∧ obs.mac = "AA:BB:CC:DD:EE:01" :=
  ⟨by decide,
   C7_record_existence.2.2.2.2 10 20 [Op.observe obsA] "AA:BB:CC:DD:EE:01" (by decide)⟩

/-- C8: the four operations are total functions in this model (they are
plain Lean functions over the tracker state); in particular calling
`check_lost` on a fresh tracker before any other call returns the empty
event list and leaves the tracker unchanged, and likewise `new_scan` and
`finalize_scan` are inert on a fresh tracker. -/
theorem C8_fresh_tracker_safe (g w now : Int) :
    check_lost (mkTracker g w) now = ([], mkTracker g w) ∧
    new_scan (mkTracker g w) = mkTracker g w ∧
    finalize_scan (mkTracker g w) = ([], mkTracker g w) := by
  exact ⟨rfl, rfl, rfl⟩

/-- The `last_seen` field of every stored record survives one operation:
`update` writes it, the other operations preserve or drop records. -/
theorem last_seen_set_applyOp (t : DeviceTracker) (op : Op)
    (h : ∀ p ∈ t.devices, p.2.last_seen ≠ none) :
    ∀ p ∈ (applyOp t op).devices, p.2.last_seen ≠ none := by
  cases op with
  | newScan =>
    intro p hp
    rcases List.mem_map.1 hp with ⟨q, hq, rfl⟩
    simpa [clearSeen] using h q hq
  | observe obs =>
    intro p hp
    rcases List.mem_map.1 hp with ⟨q, hq, rfl⟩
    show (updF obs q.1 q.2).last_seen ≠ none
    by_cases hk : q.1 = obs.mac
    · simp [updF, hk, setObs]
    · have hq2 : q ∈ t.devices := by
        by_cases hm : obs.mac ∈ t.devices.map Prod.fst
        · simpa [hm] using hq
        · rcases (by simpa [hm] using hq :
              q ∈ t.devices ∨ q = (obs.mac, defaultInfo obs)) with h1 | h1
          · exact h1
          · exact absurd (congrArg Prod.fst h1) hk
      simpa [updF, hk] using h q hq2
  | finalize =>
    intro p hp
    have hp2 : p ∈ (finalizeAux t.devices).2 := hp
    rw [finalizeAux_snd] at hp2
    rcases List.mem_map.1 hp2 with ⟨q, hq, rfl⟩
    show (finF q.1 q.2).last_seen ≠ none
    rw [finF_last_seen]
    exact h q hq
  | expire now =>
    intro p hp
    have hp2 : p ∈ (checkLostAux t.grace t.weak_grace now t.devices).2 := hp
    rw [checkLostAux_snd] at hp2
    exact h p (List.mem_filter.1 hp2).1

/-- The `last_seen` invariant holds after any operation sequence from a
state satisfying it. -/
theorem last_seen_set_runOps (ops : List Op) (t : DeviceTracker)
    (h : ∀ p ∈ t.devices, p.2.last_seen ≠ none) :
    ∀ p ∈ (runOps t ops).devices, p.2.last_seen ≠ none := by
  induction ops generalizing t with
  | nil => exact h
  | cons op ops ih => exact ih (applyOp t op) (last_seen_set_applyOp t op h)

/-- C9: in every tracker state reachable by operation sequences from a
fresh tracker, every stored record has its `last_seen` timestamp set, so
the defensive `last is None` skip in `check_lost` never fires. -/
theorem C9_last_seen_always_set (g w : Int) (ops : List Op) (p : String × DeviceInfo)
    (hp : p ∈ (runOps (mkTracker g w) ops).devices) :
    p.2.last_seen ≠ none := by
  refine last_seen_set_runOps ops (mkTracker g w) ?_ p hp
  intro q hq
  cases hq

/-- C9 witness: the invariant applied to the record created by a single
observe on a fresh tracker. -/
theorem C9_last_seen_always_set_witness :
    ("AA:BB:CC:DD:EE:01", setObs obsA (defaultInfo obsA)) ∈
      (runOps (mkTracker 10 20) [Op.observe obsA]).devices ∧
    (setObs obsA (defaultInfo obsA)).last_seen ≠ none :=
  ⟨by decide,
   C9_last_seen_always_set 10 20 [Op.observe obsA]
     ("AA:BB:CC:DD:EE:01", setObs obsA (defaultInfo obsA)) (by decide)⟩

/-- C10: updating an already-tracked address rewrites exactly the
`last_seen`, `last_rssi`, `name`, `address_type` and `seen` fields of its
record from the observation, leaves `consecutive` and `active`
unchanged, and leaves every other address's lookup unchanged. -/
theorem C10_update_frame (t : DeviceTracker) (obs : Observation) (i : DeviceInfo)
    (hl : look t.devices obs.mac = some i) :
    look (update t obs).devices obs.mac = some (setObs obs i) ∧
    (setObs obs i).consecutive = i.consecutive ∧
    (setObs obs i).active = i.active ∧
    (setObs obs i).last_seen = some obs.timestamp ∧
    (setObs obs i).last_rssi = obs.rssi ∧
    (setObs obs i).name = obs.name ∧
    (setObs obs i).address_type = obs.address_type ∧
    (setObs obs i).seen = true ∧
    (∀ m2 : String, m2 ≠ obs.mac →
      look (update t obs).devices m2 = look t.devices m2) :=
  ⟨look_update_self_of_look t obs i hl, rfl, rfl, rfl, rfl, rfl, rfl, rfl,
   fun m2 hm2 => look_update_other t obs m2 hm2⟩

/-- C10 witness: the frame theorem applied to a second observation of the
already-tracked scenario address. -/
theorem C10_update_frame_witness :
    look trackerA.devices obsA.mac = some recA ∧
    look (update trackerA obsA).devices obsA.mac = some (setObs obsA recA) ∧
    (setObs obsA recA).consecutive = recA.consecutive ∧
    (setObs obsA recA).active = recA.active := by
  have h := C10_update_frame trackerA obsA recA (by decide)
  exact ⟨by decide, h.1, h.2.1, h.2.2.1⟩

end BtWatch
